import Mathlib

/-!
Shallow embedding of `generate_sample_data.py`, a time-series sample-data
generator.  The global pseudo-random stream of Python is modelled as an explicit
list of rationals: each call to `random.random()` consumes the head of the
list (an exhausted list yields `0`, which is a legal draw).  `random.uniform a b`
is `a + (b - a) * u` and `random.choice l` picks index `⌊u * l.length⌋` for one
draw `u`, exactly the uniform-stream semantics of the source.  Machine floats
are modelled as exact rationals; `math.sin` has no exact rational counterpart,
so the embedding is parametric in a function `sinPi : ℚ → ℚ` standing for
`fun x => Real.sin (Real.pi * x)` (no claim in scope depends on the value of
the sine).  `datetime.fromtimestamp` is modelled as UTC hour/minute
arithmetic on the epoch timestamp.  Python `round(x, 2)` is modelled as
rounding `x * 100` to the nearest integer.
-/

attribute [local semireducible] Rat.add Rat.mul Rat.sub Rat.inv Rat.ofScientific

/-- The pending random draws of the shared pseudo-random stream. -/
abbrev RState := List ℚ

/-- A stream is valid when every pending draw lies in `[0, 1)`, as the draws
of `random.random()` do. -/
def validStream (s : RState) : Prop := ∀ u ∈ s, 0 ≤ u ∧ u < 1

instance : DecidablePred validStream := fun s =>
  inferInstanceAs (Decidable (∀ u ∈ s, 0 ≤ u ∧ u < 1))

/-- One call to `random.random()`: consume the head of the stream. -/
def draw (s : RState) : ℚ × RState := (s.headD 0, s.tail)

/-- Python `random.uniform a b = a + (b - a) * random.random()`. -/
def drawUniform (a b : ℚ) (s : RState) : ℚ × RState :=
  let p := draw s
  (a + (b - a) * p.1, p.2)

/-- Index selected by `random.choice` on a list of length `n` from one
uniform draw `u`: `⌊u * n⌋`, guarded so that the index is in range even for
an out-of-range draw. -/
def choiceIdx (u : ℚ) (n : ℕ) : ℕ := min (⌊u * (n : ℚ)⌋).toNat (n - 1)

/-- Python `random.choice l`, consuming one draw. -/
def drawChoice {α : Type} (l : List α) (dflt : α) (s : RState) : α × RState :=
  let p := draw s
  (l.getD (choiceIdx p.1 l.length) dflt, p.2)

/-- A metric definition, as the Python dict literals of
`HIGH_CARDINALITY_METRICS` and `METRIC_TEMPLATES`; `high_cardinality` and
`tag_keys` default to `false` / `[]` exactly as `dict.get` does in the source. -/
structure Metric where
  name : String
  unit : String
  min : ℚ
  max : ℚ
  pattern : String
  anomaly_chance : ℚ
  high_cardinality : Bool := false
  tag_keys : List String := []
deriving DecidableEq, Repr

/-- A host configuration: the dict `{"id": ..., "tags": ...}`; the tags dict
is modelled as an association list in Python insertion order. -/
structure Host where
  id : String
  tags : List (String × String)
deriving DecidableEq, Repr

/-- A generated data point. -/
structure DataPoint where
  timestamp : ℤ
  metric : String
  value : ℚ
  tags : List (String × String)
deriving DecidableEq, Repr

def dfltMetric : Metric :=
  { name := "", unit := "", min := 0, max := 0, pattern := "", anomaly_chance := 0 }

def dfltHost : Host := { id := "", tags := [] }

/-- Python dict assignment `d[k] = v`: overwrite in place, else append. -/
def dictInsert {α : Type} : List (String × α) → String → α → List (String × α)
  | [], k, v => [(k, v)]
  | (k1, v1) :: rest, k, v =>
      if k1 = k then (k, v) :: rest else (k1, v1) :: dictInsert rest k v

/-- Python `d.get(k)`: first binding of `k`, if any. -/
def dictFind {α : Type} : List (String × α) → String → Option α
  | [], _ => none
  | (k1, v1) :: rest, k => if k1 = k then some v1 else dictFind rest k

/-- Zero-pad a natural number to width `w`, as Python `"{:0wd}".format n`. -/
def padZeros (w : ℕ) (n : ℕ) : String :=
  let s := toString n
  String.mk (List.replicate (w - s.length) '0') ++ s

/-- Number of elements of Python `range start stop step` (`step ≠ 0`),
following the CPython length computation. -/
def pyRangeLen (start stop step : ℤ) : ℕ :=
  if 0 < step then
    if start < stop then ((stop - start - 1) / step).toNat + 1 else 0
  else if step < 0 then
    if stop < start then ((start - stop - 1) / (-step)).toNat + 1 else 0
  else 0

/-- Python `range start stop step` as a list, for `step ≠ 0`. -/
def pyRange (start stop step : ℤ) : List ℤ :=
  (List.range (pyRangeLen start stop step)).map (fun i : ℕ => start + step * (i : ℤ))

/-- Python slice `l[:k]` for an arbitrary integer `k` (a negative `k` counts
from the end of the list). -/
def pySliceTo {α : Type} (l : List α) (k : ℤ) : List α :=
  if k < 0 then l.take ((l.length : ℤ) + k).toNat else l.take k.toNat

/-- First dot-separated segment of a name: Python `name.split(".")[0]`. -/
def firstSegment (name : String) : String :=
  String.mk (name.toList.takeWhile (fun c => c ≠ '.'))

/-- The `HIGH_CARDINALITY_METRICS` list of the source. -/
def HIGH_CARDINALITY_METRICS : List Metric :=
  [ { name := "request.latency", unit := "milliseconds", min := 1, max := 500,
      pattern := "stable_with_spikes", anomaly_chance := 1/50,
      high_cardinality := true, tag_keys := [ "customer_id", "request_id"] },
    { name := "user.activity", unit := "actions_per_min", min := 0, max := 1000,
      pattern := "daily_cycle", anomaly_chance := 1/100,
      high_cardinality := true, tag_keys := [ "customer_id"] },
    { name := "transaction.value", unit := "dollars", min := 1/10, max := 99999/100,
      pattern := "random_spikes", anomaly_chance := 3/100,
      high_cardinality := true, tag_keys := [ "customer_id", "request_id"] } ]

/-- The `METRIC_TEMPLATES` list of the source. -/
def METRIC_TEMPLATES : List Metric :=
  [ { name := "cpu.usage", unit := "percent", min := 0, max := 100,
      pattern := "daily_cycle", anomaly_chance := 1/100 },
    { name := "memory.used", unit := "percent", min := 20, max := 95,
      pattern := "gradual_increase", anomaly_chance := 1/200 },
    { name := "disk.io", unit := "ops_per_sec", min := 0, max := 5000,
      pattern := "bursty", anomaly_chance := 1/50 },
    { name := "network.in.bytes", unit := "bytes_per_sec", min := 0, max := 100000000,
      pattern := "daily_cycle", anomaly_chance := 3/200 },
    { name := "network.out.bytes", unit := "bytes_per_sec", min := 0, max := 80000000,
      pattern := "daily_cycle", anomaly_chance := 3/200 },
    { name := "latency.ms", unit := "milliseconds", min := 1, max := 500,
      pattern := "stable_with_spikes", anomaly_chance := 3/100 },
    { name := "requests.count", unit := "count_per_min", min := 0, max := 10000,
      pattern := "daily_cycle", anomaly_chance := 1/100 },
    { name := "disk.free", unit := "percent", min := 5, max := 80,
      pattern := "gradual_decrease", anomaly_chance := 1/500 },
    { name := "errors.count", unit := "count_per_min", min := 0, max := 100,
      pattern := "random_spikes", anomaly_chance := 1/20 },
    { name := "temperature", unit := "celsius", min := 25, max := 85,
      pattern := "correlated_with_cpu", anomaly_chance := 1/125 } ]

/-- Values of the `"host"` tag category. -/
def hostValues : List String := (List.range 100).map (fun i => "server" ++ padZeros 2 (i + 1))

/-- Values of the `"customer_id"` tag category. -/
def customerIdValues : List String := (List.range 10000).map (fun i => "cust" ++ padZeros 6 (i + 1))

/-- Values of the `"request_id"` tag category. -/
def requestIdValues : List String := (List.range 1000).map (fun i => "req" ++ padZeros 8 (i + 1))

/-- The `TAG_CATEGORIES` dict of the source, in insertion order. -/
def TAG_CATEGORIES : List (String × List String) :=
  [ ("host", hostValues),
    ("datacenter", [ "us-east", "us-west", "eu-central", "ap-south", "ap-northeast"]),
    ("environment", [ "prod", "staging", "dev", "test"]),
    ("service", [ "api", "web", "db", "cache", "auth", "worker", "queue", "storage",
                  "analytics", "search", "recommendation", "payment", "notification",
                  "user", "admin"]),
    ("instance_type", [ "t3.micro", "t3.small", "t3.medium", "m5.large", "c5.xlarge",
                        "r5.2xlarge"]),
    ("os", [ "linux", "windows"]),
    ("kernel_version", [ "4.15.0", "5.4.0", "5.10.0"]),
    ("disk_type", [ "ssd", "hdd"]),
    ("customer_id", customerIdValues),
    ("request_id", requestIdValues) ]

/-- The suffix pool used when synthesizing metric variations. -/
def VARIATION_SUFFIXES : List String := [ "rate", "count", "total", "max", "p95", "p99"]

/-- One iteration of the variation-synthesis loop of `generate_metrics`:
clone a uniformly chosen template, rename it from its first dot-separated
segment and a uniformly chosen suffix, and jitter its bounds. -/
def makeVariation (s : RState) : Metric × RState :=
  let pt := drawChoice METRIC_TEMPLATES dfltMetric s
  let template := pt.1
  let ps := drawChoice VARIATION_SUFFIXES "" pt.2
  let base_name := firstSegment template.name
  let pmin := drawUniform (1/2) (3/2) ps.2
  let pmax := drawUniform (4/5) (6/5) pmin.2
  ({ template with
      name := base_name ++ "." ++ ps.1,
      min := max 0 (template.min * pmin.1),
      max := template.max * pmax.1 }, pmax.2)

/-- The `while len(metrics) < num_metrics` loop of `generate_metrics`: each
iteration appends exactly one variation, so it runs a fixed number of times. -/
def addVariations : ℕ → List Metric → RState → List Metric × RState
  | 0, ms, s => (ms, s)
  | fuel + 1, ms, s =>
      let pv := makeVariation s
      addVariations fuel (ms ++ [pv.1]) pv.2

/-- The `generate_metrics` function of the source.  Note that
`METRIC_TEMPLATES[:metrics_needed]` is a Python slice, which counts from the
end of the list when `metrics_needed` is negative, and that the early-return
branch performs no truncation. -/
def generate_metrics (num_metrics : ℤ) (s : RState) : List Metric × RState :=
  let metrics := HIGH_CARDINALITY_METRICS
  let metrics_needed := num_metrics - (HIGH_CARDINALITY_METRICS.length : ℤ)
  if metrics_needed ≤ (METRIC_TEMPLATES.length : ℤ) then
    (metrics ++ pySliceTo METRIC_TEMPLATES metrics_needed, s)
  else
    let all := metrics ++ METRIC_TEMPLATES
    let pv := addVariations (num_metrics - (all.length : ℤ)).toNat all s
    (pySliceTo pv.1 num_metrics, pv.2)

/-- The tag-sampling loop of `generate_host_configs`: iterate the tag
categories in dict order, skip `"host"` and the two high-cardinality
categories, and otherwise include the category with probability 0.8,
sampling its value uniformly. -/
def hostTagsLoop : List (String × String) → List (String × List String) → RState →
    List (String × String) × RState
  | tags, [], s => (tags, s)
  | tags, (category, values) :: rest, s =>
      if category = "host" then hostTagsLoop tags rest s
      else if category = "customer_id" ∨ category = "request_id" then
        hostTagsLoop tags rest s
      else
        let pr := draw s
        if pr.1 < 4/5 then
          let pv := drawChoice values "" pr.2
          hostTagsLoop (dictInsert tags category pv.1) rest pv.2
        else hostTagsLoop tags rest pr.2

/-- The body of `generate_host_configs` over an explicit list of 1-based host
indices. -/
def genHosts : List ℤ → RState → List Host × RState
  | [], s => ([], s)
  | i :: rest, s =>
      let host_id := "server" ++ padZeros 2 i.toNat
      let pt := hostTagsLoop [("host", host_id)] TAG_CATEGORIES s
      let ph := genHosts rest pt.2
      ({ id := host_id, tags := pt.1 } :: ph.1, ph.2)

/-- The `generate_host_configs` function of the source:
`for i in range(1, num_hosts + 1)`. -/
def generate_host_configs (num_hosts : ℤ) (s : RState) : List Host × RState :=
  genHosts (pyRange 1 (num_hosts + 1) 1) s

/-- Pattern dispatch of `generate_value`: the `base_value` computation,
consuming exactly the draws the Python branch consumes (Python `or` and
`and` short-circuit, so the 1%-reset roll is consumed only when the guard
before it holds). -/
def patternBase (sinPi : ℚ → ℚ) (timestamp : ℤ) (metric : Metric)
    (last_value : Option ℚ) (s : RState) : ℚ × RState :=
  let min_val := metric.min
  let max_val := metric.max
  let value_range := max_val - min_val
  let hour : ℤ := (timestamp / 3600) % 24
  let minute : ℤ := (timestamp % 3600) / 60
  let day_progress : ℚ := ((hour * 60 + minute : ℤ) : ℚ) / (24 * 60)
  if metric.pattern = "daily_cycle" then
    if 9 ≤ hour ∧ hour < 17 then
      let work_progress : ℚ := ((hour - 9 : ℤ) : ℚ) / 8
      let daily_factor := 1/2 + 1/2 * sinPi (work_progress - 1/2)
      (min_val + value_range * (3/5 + 2/5 * daily_factor), s)
    else
      let pu := drawUniform (1/10) (2/5) s
      (min_val + value_range * pu.1, pu.2)
  else if metric.pattern = "gradual_increase" then
    match last_value with
    | some lv =>
        let pc := drawUniform (1/1000) (1/100) s
        let base := lv + value_range * pc.1
        if max_val < base then
          let pu := drawUniform (1/10) (3/10) pc.2
          (min_val + value_range * pu.1, pu.2)
        else if min_val + value_range * (7/10) < base then
          let pr := draw pc.2
          if pr.1 < 1/100 then
            let pu := drawUniform (1/10) (3/10) pr.2
            (min_val + value_range * pu.1, pu.2)
          else (base, pr.2)
        else (base, pc.2)
    | none =>
        let pu := drawUniform (1/5) (2/5) s
        (min_val + value_range * pu.1, pu.2)
  else if metric.pattern = "gradual_decrease" then
    match last_value with
    | some lv =>
        let pc := drawUniform (1/1000) (1/100) s
        let base := lv - value_range * pc.1
        if base < min_val then
          let pu := drawUniform (7/10) (9/10) pc.2
          (min_val + value_range * pu.1, pu.2)
        else if base < min_val + value_range * (3/10) then
          let pr := draw pc.2
          if pr.1 < 1/100 then
            let pu := drawUniform (7/10) (9/10) pr.2
            (min_val + value_range * pu.1, pu.2)
          else (base, pr.2)
        else (base, pc.2)
    | none =>
        let pu := drawUniform (3/5) (4/5) s
        (min_val + value_range * pu.1, pu.2)
  else if metric.pattern = "bursty" then
    match last_value with
    | some lv =>
        if min_val + value_range * (1/2) < lv then
          let pr := draw s
          if pr.1 < 4/5 then
            let pc := drawUniform (-(1/10)) (1/10) pr.2
            (max min_val (min max_val (lv + value_range * pc.1)), pc.2)
          else
            let pu := drawUniform (1/20) (1/5) pr.2
            (min_val + value_range * pu.1, pu.2)
        else
          let pr := draw s
          if pr.1 < 1/20 then
            let pu := drawUniform (1/2) (4/5) pr.2
            (min_val + value_range * pu.1, pu.2)
          else
            let pu := drawUniform (1/20) (1/5) pr.2
            (min_val + value_range * pu.1, pu.2)
    | none =>
        let pr := draw s
        if pr.1 < 1/20 then
          let pu := drawUniform (1/2) (4/5) pr.2
          (min_val + value_range * pu.1, pu.2)
        else
          let pu := drawUniform (1/20) (1/5) pr.2
          (min_val + value_range * pu.1, pu.2)
  else if metric.pattern = "stable_with_spikes" then
    let stable_value := min_val + value_range * (1/5)
    let pr := draw s
    if pr.1 < 1/10 then
      let ph := drawUniform (3/10) (4/5) pr.2
      (min_val + value_range * ph.1, ph.2)
    else
      let pn := drawUniform (-(1/20)) (1/20) pr.2
      (stable_value + value_range * pn.1, pn.2)
  else if metric.pattern = "random_spikes" then
    let pr := draw s
    if pr.1 < 3/20 then
      let pu := drawUniform (3/10) 1 pr.2
      (min_val + value_range * pu.1, pu.2)
    else
      let pu := drawUniform 0 (1/10) pr.2
      (min_val + value_range * pu.1, pu.2)
  else if metric.pattern = "correlated_with_cpu" then
    let cpu_like := min_val + value_range * (2/5) * (1 + sinPi (2 * day_progress))
    let pn := drawUniform (-(1/10)) (1/10) s
    (cpu_like + value_range * pn.1, pn.2)
  else
    let pu := draw s
    (min_val + value_range * pu.1, pu.2)

/-- The value of `generate_value` just before the final clamp and rounding:
pattern base, plus ±2%-of-range noise, possibly overridden by an anomaly. -/
def rawValue (sinPi : ℚ → ℚ) (timestamp : ℤ) (metric : Metric)
    (last_value : Option ℚ) (s : RState) : ℚ × RState :=
  let min_val := metric.min
  let value_range := metric.max - metric.min
  let pb := patternBase sinPi timestamp metric last_value s
  let pn := drawUniform (-(1/50)) (1/50) pb.2
  let value := pb.1 + value_range * pn.1
  let pa := draw pn.2
  if pa.1 < metric.anomaly_chance then
    let pd := draw pa.2
    if pd.1 < 1/2 then
      let pu := drawUniform (4/5) (6/5) pd.2
      (min_val + value_range * pu.1, pu.2)
    else
      let pu := drawUniform 0 (1/5) pd.2
      (min_val + value_range * pu.1, pu.2)
  else (value, pa.2)

/-- Python `round(q, 2)`, as rounding `q * 100` to the nearest integer. -/
def round2 (q : ℚ) : ℚ := ((round (q * 100) : ℤ) : ℚ) / 100

/-- The `generate_value` function of the source: pattern value, noise,
anomaly, clamp to `[min, max]`, round to 2 decimal places. -/
def generate_value (sinPi : ℚ → ℚ) (timestamp : ℤ) (metric : Metric)
    (last_value : Option ℚ) (s : RState) : ℚ × RState :=
  let pv := rawValue sinPi timestamp metric last_value s
  (round2 (max metric.min (min metric.max pv.1)), pv.2)

/-- State carried through the generation loops: the produced points, the
`last_values` dict keyed by `"host:metric"`, and the random stream. -/
abbrev GenState := List DataPoint × List (String × ℚ) × RState

/-- Overlay the per-timestamp shared high-cardinality ids onto the tags of a
point, for exactly the keys the metric declares. -/
def applyHighCardinality (metric : Metric) (cid rid : String)
    (tags : List (String × String)) : List (String × String) :=
  if metric.high_cardinality then
    metric.tag_keys.foldl
      (fun tgs tag_key =>
        if tag_key = "customer_id" then dictInsert tgs "customer_id" cid
        else if tag_key = "request_id" then dictInsert tgs "request_id" rid
        else tgs)
      tags
  else tags

/-- Inner loop of `generate_time_series_data`: one (timestamp, host) pair,
iterating the metric catalog in order. -/
def genMetricsLoop (sinPi : ℚ → ℚ) (ts : ℤ) (cid rid : String) (host : Host) :
    List Metric → List (String × ℚ) → RState → GenState
  | [], lastVals, s => ([], lastVals, s)
  | metric :: rest, lastVals, s =>
      let key := host.id ++ ":" ++ metric.name
      let pv := generate_value sinPi ts metric (dictFind lastVals key) s
      let lastVals1 := dictInsert lastVals key pv.1
      let tags := applyHighCardinality metric cid rid host.tags
      let dp : DataPoint := { timestamp := ts, metric := metric.name, value := pv.1, tags := tags }
      let rec1 := genMetricsLoop sinPi ts cid rid host rest lastVals1 pv.2
      (dp :: rec1.1, rec1.2)

/-- Middle loop of `generate_time_series_data`: one timestamp, iterating the
hosts in order. -/
def genHostsLoop (sinPi : ℚ → ℚ) (ts : ℤ) (cid rid : String) (metrics : List Metric) :
    List Host → List (String × ℚ) → RState → GenState
  | [], lastVals, s => ([], lastVals, s)
  | host :: rest, lastVals, s =>
      let b := genMetricsLoop sinPi ts cid rid host metrics lastVals s
      let r := genHostsLoop sinPi ts cid rid metrics rest b.2.1 b.2.2
      (b.1 ++ r.1, r.2)

/-- Outer loop of `generate_time_series_data`: for each timestamp draw the
shared customer and request ids, then iterate hosts and metrics. -/
def genTimestampsLoop (sinPi : ℚ → ℚ) (metrics : List Metric) (hosts : List Host) :
    List ℤ → List (String × ℚ) → RState → GenState
  | [], lastVals, s => ([], lastVals, s)
  | ts :: rest, lastVals, s =>
      let pc := drawChoice customerIdValues "" s
      let pr := drawChoice requestIdValues "" pc.2
      let b := genHostsLoop sinPi ts pc.1 pr.1 metrics hosts lastVals pr.2
      let r := genTimestampsLoop sinPi metrics hosts rest b.2.1 b.2.2
      (b.1 ++ r.1, r.2)

/-- The `generate_time_series_data` function of the source.  `range` with a
zero step raises `ValueError` in Python, modelled as an `Except.error`; all
other configurations run to completion. -/
def generate_time_series_data (sinPi : ℚ → ℚ) (start_time end_time interval : ℤ)
    (metrics : List Metric) (hosts : List Host) (s : RState) :
    Except String (List DataPoint) × RState :=
  if interval = 0 then (Except.error "range() arg 3 must not be zero", s)
  else
    let g := genTimestampsLoop sinPi metrics hosts
      (pyRange start_time (end_time + 1) interval) [] s
    (Except.ok g.1, g.2.2)

/-- The generation pipeline of `main` after seeding: build the metric
catalog, build the host catalog, then generate the series, all drawing from
the one shared stream in order. -/
def generateRun (sinPi : ℚ → ℚ) (start_time end_time interval num_metrics num_hosts : ℤ)
    (s : RState) : Except String (List DataPoint) :=
  let pm := generate_metrics num_metrics s
  let ph := generate_host_configs num_hosts pm.2
  (generate_time_series_data sinPi start_time end_time interval pm.1 ph.1 ph.2).1

/-- Concrete stand-in for the sine parameter, used for concrete evaluations
whose claims do not depend on the value of the sine. -/
def sinPiZero : ℚ → ℚ := fun _ => 0

deriving instance DecidableEq for Except

/-- The per-host contract of `generate_host_configs` for the 1-based index
`idx1`: the id format, the `"host"` tag, the absence of the two
high-cardinality categories, and that every other tag is a sampled value of
its category. -/
def hostOk (host : Host) (idx1 : ℕ) : Prop :=
  host.id = "server" ++ padZeros 2 idx1 ∧
  dictFind host.tags "host" = some host.id ∧
  dictFind host.tags "customer_id" = none ∧
  dictFind host.tags "request_id" = none ∧
  ∀ k v, dictFind host.tags k = some v →
    (k = "host" ∧ v = host.id) ∨
    ∃ vals, (k, vals) ∈ TAG_CATEGORIES ∧ v ∈ vals ∧
      k ≠ "host" ∧ k ≠ "customer_id" ∧ k ≠ "request_id"

/-- A small concrete high-cardinality metric used in concrete evaluations. -/
def cMetric : Metric :=
  { name := "m1", unit := "u", min := 0, max := 1, pattern := "", anomaly_chance := 0,
    high_cardinality := true, tag_keys := [ "customer_id"] }

/-- A second concrete high-cardinality metric declaring both shared tag keys. -/
def cMetric2 : Metric :=
  { name := "m2", unit := "u", min := 0, max := 1, pattern := "", anomaly_chance := 0,
    high_cardinality := true, tag_keys := [ "customer_id", "request_id"] }

/-- A concrete host used in concrete evaluations. -/
def cHost : Host := { id := "h1", tags := [("host", "h1")] }

/-- The first point of the concrete single-timestamp run used as the C4
witness. -/
def cPoint1 : DataPoint :=
  { timestamp := 0, metric := "m1", value := 0,
    tags := [("host", "h1"), ("customer_id", "cust000001")] }

/-- The second point of the concrete single-timestamp run used as the C4
witness. -/
def cPoint2 : DataPoint :=
  { timestamp := 0, metric := "m2", value := 0,
    tags := [("host", "h1"), ("customer_id", "cust000001"), ("request_id", "req00000001")] }

/-! Helper lemmas about the generation loops. -/

theorem genMetricsLoop_length (sinPi : ℚ → ℚ) (ts : ℤ) (cid rid : String) (host : Host) :
    ∀ (ms : List Metric) (lv : List (String × ℚ)) (s : RState),
    (genMetricsLoop sinPi ts cid rid host ms lv s).1.length = ms.length := by
  intro ms
  induction ms with
  | nil => intro lv s; rfl
  | cons m rest ih => intro lv s; simp [genMetricsLoop, ih]

theorem genHostsLoop_length (sinPi : ℚ → ℚ) (ts : ℤ) (cid rid : String) (metrics : List Metric) :
    ∀ (hs : List Host) (lv : List (String × ℚ)) (s : RState),
    (genHostsLoop sinPi ts cid rid metrics hs lv s).1.length = hs.length * metrics.length := by
  intro hs
  induction hs with
  | nil => intro lv s; simp [genHostsLoop]
  | cons h rest ih =>
      intro lv s
      simp [genHostsLoop, ih, genMetricsLoop_length]
      ring

theorem genTimestampsLoop_length (sinPi : ℚ → ℚ) (metrics : List Metric) (hosts : List Host) :
    ∀ (tss : List ℤ) (lv : List (String × ℚ)) (s : RState),
    (genTimestampsLoop sinPi metrics hosts tss lv s).1.length
      = tss.length * (hosts.length * metrics.length) := by
  intro tss
  induction tss with
  | nil => intro lv s; simp [genTimestampsLoop]
  | cons ts rest ih =>
      intro lv s
      simp [genTimestampsLoop, ih, genHostsLoop_length]
      ring

theorem pyRange_length (a b c : ℤ) : (pyRange a b c).length = pyRangeLen a b c := by
  simp only [pyRange, List.length_map, List.length_range]

theorem pyRangeLen_closed (start endT interval : ℤ) (h1 : 0 < interval) (h2 : start ≤ endT) :
    pyRangeLen start (endT + 1) interval = ((endT - start) / interval).toNat + 1 := by
  unfold pyRangeLen
  rw [if_pos h1, if_pos (by omega : start < endT + 1)]
  have he : endT + 1 - start - 1 = endT - start := by ring
  rw [he]

theorem pyRangeLen_of_gt (start endT interval : ℤ) (h1 : 0 < interval) (h2 : endT < start) :
    pyRangeLen start (endT + 1) interval = 0 := by
  unfold pyRangeLen
  rw [if_pos h1, if_neg (by omega : ¬ start < endT + 1)]

theorem run_eq_ok (sinPi : ℚ → ℚ) (start endT interval : ℤ) (metrics : List Metric)
    (hosts : List Host) (s : RState) (hne : interval ≠ 0) :
    (generate_time_series_data sinPi start endT interval metrics hosts s).1
      = Except.ok (genTimestampsLoop sinPi metrics hosts
          (pyRange start (endT + 1) interval) [] s).1 := by
  simp [generate_time_series_data, hne]

theorem run_ok_nil (sinPi : ℚ → ℚ) (start endT interval : ℤ) (metrics : List Metric)
    (hosts : List Host) (s : RState) (h1 : 0 < interval)
    (hdeg : metrics = [] ∨ hosts = [] ∨ endT < start) :
    (generate_time_series_data sinPi start endT interval metrics hosts s).1
      = Except.ok [] := by
  rw [run_eq_ok sinPi start endT interval metrics hosts s h1.ne']
  suffices hnil : (genTimestampsLoop sinPi metrics hosts
      (pyRange start (endT + 1) interval) [] s).1 = [] by rw [hnil]
  apply List.length_eq_zero.mp
  rw [genTimestampsLoop_length, pyRange_length]
  rcases hdeg with hm | hh | hlt
  · subst hm; simp
  · subst hh; simp
  · rw [pyRangeLen_of_gt start endT interval h1 hlt]; simp

/-! C1.  The spec claims `build_metrics n` always returns exactly `n` entries,
with `n = 0` yielding an empty catalog.  The code hits the Python
negative-slice pitfall: for `n = 0`, `METRIC_TEMPLATES[:-3]` appends the
first 7 templates and the early return performs no truncation, so 10
metric definitions are returned. -/

/-- C1: evaluating `generate_metrics` at the failing input `num_metrics = 0`
returns 10 entries, not 0. -/
theorem build_metrics_zero_count_bug : (generate_metrics 0 []).1.length = 10 := by decide

/-- C5: determinism — the generation pipeline is a pure function of the
configuration and of the seeded random stream, so two runs with the same
stream produce identical output. -/
theorem deterministic_run (sinPi : ℚ → ℚ) (start endT interval nm nh : ℤ)
    (s1 s2 : RState) (h : s1 = s2) :
    generateRun sinPi start endT interval nm nh s1
      = generateRun sinPi start endT interval nm nh s2 := by rw [h]

/-- C5 witness: two runs at a concrete configuration and stream coincide. -/
theorem deterministic_run_witness :
    generateRun sinPiZero 0 60 60 1 1 [] = generateRun sinPiZero 0 60 60 1 1 [] :=
  deterministic_run sinPiZero 0 60 60 1 1 [] [] rfl

/-- C6 counterexample: an invalid configuration with `end < start` is not
refused — the generator silently returns an empty ok result, even with
non-empty catalogs. -/
theorem invalid_range_silently_ok :
    (generate_time_series_data sinPiZero 10 0 1 [cMetric] [cHost] []).1
      = Except.ok [] := by decide

/-- C6 as amended: the code performs no configuration validation.  A zero
interval fails with the raw `range` error (not a descriptive configuration
error), and an inverted time range with a positive interval silently
produces an empty dataset. -/
theorem no_config_validation (sinPi : ℚ → ℚ) (start endT interval : ℤ)
    (metrics : List Metric) (hosts : List Host) (s : RState) :
    (interval = 0 →
      (generate_time_series_data sinPi start endT interval metrics hosts s).1
        = Except.error "range() arg 3 must not be zero") ∧
    (0 < interval → endT < start →
      (generate_time_series_data sinPi start endT interval metrics hosts s).1
        = Except.ok []) := by
  constructor
  · intro h0
    simp [generate_time_series_data, h0]
  · intro h1 h2
    exact run_ok_nil sinPi start endT interval metrics hosts s h1 (Or.inr (Or.inr h2))

/-- C6 witness: both behaviours at concrete configurations. -/
theorem no_config_validation_witness :
    ((generate_time_series_data sinPiZero 0 0 0 [cMetric] [cHost] []).1
        = Except.error "range() arg 3 must not be zero") ∧
    ((generate_time_series_data sinPiZero 10 0 1 [cMetric] [cHost] []).1
        = Except.ok []) :=
  ⟨(no_config_validation sinPiZero 0 0 0 [cMetric] [cHost] []).1 rfl,
   (no_config_validation sinPiZero 10 0 1 [cMetric] [cHost] []).2 (by decide) (by decide)⟩

/-- C10: degenerate configurations — empty metric catalog, empty host
catalog, or `end < start` — produce an empty dataset and signal no error. -/
theorem degenerate_config_empty (sinPi : ℚ → ℚ) (start endT interval : ℤ)
    (metrics : List Metric) (hosts : List Host) (s : RState) (h1 : 0 < interval)
    (hdeg : metrics = [] ∨ hosts = [] ∨ endT < start) :
    (generate_time_series_data sinPi start endT interval metrics hosts s).1
      = Except.ok [] :=
  run_ok_nil sinPi start endT interval metrics hosts s h1 hdeg

/-- C10 witness: a concrete inverted range yields `ok []`. -/
theorem degenerate_config_empty_witness :
    (0 : ℤ) < 1 ∧ (-1 : ℤ) < 0 ∧
    (generate_time_series_data sinPiZero 0 (-1) 1 [cMetric] [cHost] []).1
      = Except.ok [] :=
  ⟨by decide, by decide,
   degenerate_config_empty sinPiZero 0 (-1) 1 [cMetric] [cHost] [] (by decide)
     (Or.inr (Or.inr (by decide)))⟩

/-- C3 counterexample: with `start = 0`, `end = 5`, `interval = 2`, one
metric and one host, the generator emits 3 points, but the claimed formula
`⌈(end − start) / interval⌉ + 1` gives 4. -/
theorem series_count_ceiling_fails :
    Except.map List.length
        (generate_time_series_data sinPiZero 0 5 2 [cMetric] [cHost] []).1
      = Except.ok 3 ∧
    ((⌈(((5 : ℚ) - 0) / 2 : ℚ)⌉ + 1) * 1 * 1 : ℤ) ≠ 3 := by
  constructor
  · decide
  · decide

/-- C3 as amended: for `start ≤ end` and a positive interval the number of
points is `(⌊(end − start) / interval⌋ + 1) × metrics × hosts` (the range is
closed and stepped until it would exceed `end`, so the timestamp count uses
the floor, not the ceiling). -/
theorem series_count (sinPi : ℚ → ℚ) (start endT interval : ℤ) (metrics : List Metric)
    (hosts : List Host) (s : RState) (h1 : 0 < interval) (h2 : start ≤ endT) :
    Except.map List.length
        (generate_time_series_data sinPi start endT interval metrics hosts s).1
      = Except.ok ((((endT - start) / interval).toNat + 1)
          * metrics.length * hosts.length) := by
  rw [run_eq_ok sinPi start endT interval metrics hosts s h1.ne']
  simp only [Except.map]
  rw [genTimestampsLoop_length, pyRange_length,
    pyRangeLen_closed start endT interval h1 h2]
  ring_nf

/-- C3 witness: the amended count formula at a concrete configuration. -/
theorem series_count_witness :
    (0 : ℤ) < 2 ∧ (0 : ℤ) ≤ 5 ∧
    Except.map List.length
        (generate_time_series_data sinPiZero 0 5 2 [cMetric] [cHost] []).1
      = Except.ok (((((5 : ℤ) - 0) / 2).toNat + 1) * 1 * 1) := by
  refine ⟨by decide, by decide, ?_⟩
  have h := series_count sinPiZero 0 5 2 [cMetric] [cHost] [] (by decide) (by decide)
  simpa using h

/-! Helper lemmas about streams, choices and slices. -/

theorem validStream_tail {s : RState} (hs : validStream s) : validStream s.tail :=
  fun u hu => hs u (List.mem_of_mem_tail hu)

theorem draw_bounds {s : RState} (hs : validStream s) : 0 ≤ (draw s).1 ∧ (draw s).1 < 1 := by
  cases s with
  | nil => refine ⟨?_, ?_⟩ <;> norm_num [draw]
  | cons a t => exact hs a (List.mem_cons_self a t)

theorem drawChoice_mem {α : Type} (l : List α) (d : α) (hl : l ≠ []) (s : RState) :
    (drawChoice l d s).1 ∈ l := by
  have hlen : 0 < l.length := List.length_pos.mpr hl
  have hidx : choiceIdx (draw s).1 l.length < l.length := by
    unfold choiceIdx; omega
  show l.getD (choiceIdx (draw s).1 l.length) d ∈ l
  rw [List.getD_eq_getElem?_getD, List.getElem?_eq_getElem hidx]
  exact List.getElem_mem hidx

theorem pySliceTo_subset {α : Type} (l : List α) (k : ℤ) : pySliceTo l k ⊆ l := by
  unfold pySliceTo
  split
  · exact List.take_subset _ _
  · exact List.take_subset _ _

theorem pySliceTo_sublist {α : Type} (l : List α) (k : ℤ) : (pySliceTo l k).Sublist l := by
  unfold pySliceTo
  split
  · exact List.take_sublist _ _
  · exact List.take_sublist _ _

/-! C7.  Metric-name uniqueness. -/

/-- C7 counterexample: with 14 requested metrics and a stream that picks the
`requests.count` template and the `count` suffix, the synthesized variation
is again named `requests.count`, so catalog names are not pairwise
distinct. -/
theorem metric_names_dup :
    ¬ ((generate_metrics 14 [3/5, 1/6, 0, 0]).1.map Metric.name).Nodup := by decide

/-- C7 as amended: metric names are pairwise distinct whenever the requested
count does not exceed the 13 built-in definitions (3 high-cardinality plus
10 templates), i.e. when no variation is synthesized; synthesized variation
names can collide with template names or with each other. -/
theorem metric_names_nodup (n : ℤ) (hn : n ≤ 13) (s : RState) :
    ((generate_metrics n s).1.map Metric.name).Nodup := by
  have hcond : n - (HIGH_CARDINALITY_METRICS.length : ℤ) ≤ (METRIC_TEMPLATES.length : ℤ) := by
    have h3 : (HIGH_CARDINALITY_METRICS.length : ℤ) = 3 := by decide
    have h10 : (METRIC_TEMPLATES.length : ℤ) = 10 := by decide
    omega
  unfold generate_metrics
  rw [if_pos hcond]
  refine List.Nodup.sublist ?_ (?_ :
    ((HIGH_CARDINALITY_METRICS ++ METRIC_TEMPLATES).map Metric.name).Nodup)
  · exact List.Sublist.map Metric.name
      (List.Sublist.append_left (pySliceTo_sublist METRIC_TEMPLATES _) _)
  · decide

/-- C7 witness: the full 13-entry built-in catalog has pairwise distinct
names. -/
theorem metric_names_nodup_witness :
    (13 : ℤ) ≤ 13 ∧ ((generate_metrics 13 []).1.map Metric.name).Nodup :=
  ⟨by decide, metric_names_nodup 13 (by decide) []⟩

/-! C9.  Every catalog entry satisfies `min ≤ max`. -/

theorem base_min_le_max :
    ∀ m ∈ HIGH_CARDINALITY_METRICS ++ METRIC_TEMPLATES, m.min ≤ m.max := by decide

theorem templates_bounds :
    ∀ t ∈ METRIC_TEMPLATES,
      0 ≤ t.min ∧ 0 ≤ t.max ∧ (3/2 : ℚ) * t.min ≤ (4/5 : ℚ) * t.max := by decide

theorem variation_bound_aux (t : Metric) (u1 u2 : ℚ) (h0min : 0 ≤ t.min)
    (h0max : 0 ≤ t.max) (hle : (3/2 : ℚ) * t.min ≤ (4/5 : ℚ) * t.max)
    (hu1 : 0 ≤ u1 ∧ u1 < 1) (hu2 : 0 ≤ u2 ∧ u2 < 1) :
    max 0 (t.min * (1/2 + (3/2 - 1/2) * u1)) ≤ t.max * (4/5 + (6/5 - 4/5) * u2) := by
  have p1 : 0 ≤ t.min * (1 - u1) := mul_nonneg h0min (by linarith [hu1.2])
  have p2 : 0 ≤ t.max * u2 := mul_nonneg h0max hu2.1
  apply max_le
  · nlinarith [p2, h0max]
  · nlinarith [p1, p2, hle]

theorem makeVariation_min_le_max {s : RState} (hs : validStream s) :
    (makeVariation s).1.min ≤ (makeVariation s).1.max := by
  have htm : (drawChoice METRIC_TEMPLATES dfltMetric s).1 ∈ METRIC_TEMPLATES :=
    drawChoice_mem METRIC_TEMPLATES dfltMetric (by decide) s
  obtain ⟨h0min, h0max, hle⟩ := templates_bounds _ htm
  have hu1 := draw_bounds (validStream_tail (validStream_tail hs))
  have hu2 := draw_bounds (validStream_tail (validStream_tail (validStream_tail hs)))
  exact variation_bound_aux (drawChoice METRIC_TEMPLATES dfltMetric s).1
    (draw s.tail.tail).1 (draw s.tail.tail.tail).1 h0min h0max hle hu1 hu2

theorem makeVariation_stream (s : RState) : (makeVariation s).2 = s.tail.tail.tail.tail := rfl

theorem addVariations_min_le_max :
    ∀ (k : ℕ) (ms : List Metric) (s : RState), validStream s →
      (∀ m ∈ ms, m.min ≤ m.max) → ∀ m ∈ (addVariations k ms s).1, m.min ≤ m.max := by
  intro k
  induction k with
  | zero => intro ms s _ hms m hm; exact hms m hm
  | succ k ih =>
      intro ms s hs hms m hm
      rw [addVariations] at hm
      refine ih _ _ ?_ ?_ m hm
      · rw [makeVariation_stream]
        exact validStream_tail (validStream_tail (validStream_tail (validStream_tail hs)))
      · intro m1 hm1
        rcases List.mem_append.mp hm1 with h | h
        · exact hms m1 h
        · rw [List.mem_singleton.mp h]
          exact makeVariation_min_le_max hs

/-- C9: every metric definition in a catalog built from a valid random
stream satisfies `min ≤ max`, including the synthesized variations. -/
theorem metric_bounds_ordered (n : ℤ) (s : RState) (hs : validStream s) :
    ∀ m ∈ (generate_metrics n s).1, m.min ≤ m.max := by
  intro m hm
  unfold generate_metrics at hm
  by_cases hcond : n - (HIGH_CARDINALITY_METRICS.length : ℤ) ≤ (METRIC_TEMPLATES.length : ℤ)
  · rw [if_pos hcond] at hm
    rcases List.mem_append.mp hm with h | h
    · exact base_min_le_max m (List.mem_append.mpr (Or.inl h))
    · exact base_min_le_max m
        (List.mem_append.mpr (Or.inr (pySliceTo_subset METRIC_TEMPLATES _ h)))
  · rw [if_neg hcond] at hm
    exact addVariations_min_le_max _ _ _ hs base_min_le_max m
      (pySliceTo_subset _ _ hm)

/-- C9 witness: a catalog of 14 metrics built from a concrete valid stream;
its synthesized 14th entry satisfies the bound ordering. -/
theorem metric_bounds_ordered_witness :
    validStream [1/2, 0, 383/2000, 0] ∧
    ((generate_metrics 14 [1/2, 0, 383/2000, 0]).1.getD 13 dfltMetric).min
      ≤ ((generate_metrics 14 [1/2, 0, 383/2000, 0]).1.getD 13 dfltMetric).max :=
  ⟨by decide, metric_bounds_ordered 14 [1/2, 0, 383/2000, 0] (by decide) _ (by decide)⟩

/-! C2.  Value bounds. -/

/-- C2 counterexample: a synthesized catalog metric can carry a minimum that
is not a 2-decimal value (here `latency.rate` with `min = 0.6915`), and
rounding after clamping then produces the value `0.69 < min`.  The stream
drives `stable_with_spikes` into its anomaly drop branch with a zero draw,
so the clamped value is exactly `min` before rounding. -/
theorem value_below_min :
    ((generate_metrics 14 [1/2, 0, 383/2000, 0]).1.getD 13 dfltMetric)
        ∈ (generate_metrics 14 [1/2, 0, 383/2000, 0]).1 ∧
    (generate_value sinPiZero 0
        ((generate_metrics 14 [1/2, 0, 383/2000, 0]).1.getD 13 dfltMetric) none
        [1/2, 0, 1/2, 0, 1/2, 0]).1
      < ((generate_metrics 14 [1/2, 0, 383/2000, 0]).1.getD 13 dfltMetric).min := by
  constructor
  · decide
  · decide

theorem round2_mono {q r : ℚ} (h : q ≤ r) : round2 q ≤ round2 r := by
  unfold round2
  have hr : round (q * 100) ≤ round (r * 100) := by
    rw [round_eq, round_eq]
    exact Int.floor_mono (by linarith)
  have h100 : (0 : ℚ) < 100 := by norm_num
  rw [div_le_div_iff_of_pos_right h100]
  exact_mod_cast hr

theorem round2_coe_div (a : ℤ) : round2 ((a : ℚ) / 100) = (a : ℚ) / 100 := by
  unfold round2
  rw [div_mul_cancel₀ (a : ℚ) (by norm_num : (100 : ℚ) ≠ 0), round_intCast]

/-- C2 as amended: for every metric whose bounds are exact 2-decimal values
(as all 13 built-in catalog entries are) with `min ≤ max`, every generated
value lies in `[min, max]` — for arbitrary timestamp, previous value and
draw stream.  (For synthesized variation metrics the clamped value is in
`[min, max]` but the final rounding can move it below `min` or above `max`
by up to half a hundredth, as the counterexample shows.) -/
theorem value_within_bounds (sinPi : ℚ → ℚ) (t : ℤ) (m : Metric) (lv : Option ℚ)
    (s : RState) (hmm : m.min ≤ m.max) (a b : ℤ)
    (ha : m.min = (a : ℚ) / 100) (hb : m.max = (b : ℚ) / 100) :
    m.min ≤ (generate_value sinPi t m lv s).1 ∧
    (generate_value sinPi t m lv s).1 ≤ m.max := by
  have hclamp1 : m.min ≤ max m.min (min m.max (rawValue sinPi t m lv s).1) :=
    le_max_left _ _
  have hclamp2 : max m.min (min m.max (rawValue sinPi t m lv s).1) ≤ m.max :=
    max_le hmm (min_le_left _ _)
  have e : (generate_value sinPi t m lv s).1
      = round2 (max m.min (min m.max (rawValue sinPi t m lv s).1)) := rfl
  constructor
  · calc m.min = round2 m.min := by rw [ha, round2_coe_div]
      _ ≤ round2 (max m.min (min m.max (rawValue sinPi t m lv s).1)) := round2_mono hclamp1
      _ = (generate_value sinPi t m lv s).1 := e.symm
  · calc (generate_value sinPi t m lv s).1
        = round2 (max m.min (min m.max (rawValue sinPi t m lv s).1)) := e
      _ ≤ round2 m.max := round2_mono hclamp2
      _ = m.max := by rw [hb, round2_coe_div]

/-- C2 witness: the amended bound at a concrete metric, timestamp and
stream. -/
theorem value_within_bounds_witness :
    cMetric.min ≤ (generate_value sinPiZero 0 cMetric none []).1 ∧
    (generate_value sinPiZero 0 cMetric none []).1 ≤ cMetric.max :=
  value_within_bounds sinPiZero 0 cMetric none [] (by decide) 0 100
    (by norm_num [cMetric]) (by norm_num [cMetric])

/-! C8.  Host catalog. -/

theorem dictFind_dictInsert_self {α : Type} (d : List (String × α)) (k : String) (v : α) :
    dictFind (dictInsert d k v) k = some v := by
  induction d with
  | nil => simp [dictInsert, dictFind]
  | cons p rest ih =>
      obtain ⟨k1, v1⟩ := p
      by_cases h : k1 = k
      · simp [dictInsert, h, dictFind]
      · simp [dictInsert, h, dictFind, ih]

theorem dictFind_dictInsert_ne {α : Type} (d : List (String × α)) (k1 k : String) (v : α)
    (h : k1 ≠ k) : dictFind (dictInsert d k1 v) k = dictFind d k := by
  induction d with
  | nil => simp [dictInsert, dictFind, h]
  | cons p rest ih =>
      obtain ⟨k2, v2⟩ := p
      by_cases h2 : k2 = k1
      · subst h2
        simp [dictInsert, dictFind, h, ih]
      · by_cases h3 : k2 = k
        · simp [dictInsert, h2, dictFind, h3, Ne.symm h]
        · simp [dictInsert, h2, dictFind, h3, ih]

theorem hostTagsLoop_special (k : String)
    (hk : k = "host" ∨ k = "customer_id" ∨ k = "request_id") :
    ∀ (cats : List (String × List String)) (tags : List (String × String)) (s : RState),
    dictFind (hostTagsLoop tags cats s).1 k = dictFind tags k := by
  intro cats
  induction cats with
  | nil => intro tags s; rfl
  | cons c rest ih =>
      intro tags s
      obtain ⟨category, values⟩ := c
      by_cases h1 : category = "host"
      · simp only [hostTagsLoop, if_pos h1]
        exact ih tags s
      · by_cases h2 : category = "customer_id" ∨ category = "request_id"
        · simp only [hostTagsLoop, if_neg h1, if_pos h2]
          exact ih tags s
        · simp only [hostTagsLoop, if_neg h1, if_neg h2]
          have hck : category ≠ k := by
            rcases hk with hh | hh | hh
            · rw [hh]; exact h1
            · rw [hh]; exact (not_or.mp h2).1
            · rw [hh]; exact (not_or.mp h2).2
          by_cases h3 : (draw s).1 < 4/5
          · simp only [if_pos h3]
            rw [ih, dictFind_dictInsert_ne _ _ _ _ hck]
          · simp only [if_neg h3]
            exact ih tags _

theorem hostTagsLoop_source :
    ∀ (cats : List (String × List String)) (tags : List (String × String)) (s : RState)
      (k v : String),
    (∀ pr ∈ cats, pr.2 ≠ []) →
    dictFind (hostTagsLoop tags cats s).1 k = some v →
    dictFind tags k = some v ∨
      ∃ vals, (k, vals) ∈ cats ∧ v ∈ vals ∧
        k ≠ "host" ∧ k ≠ "customer_id" ∧ k ≠ "request_id" := by
  intro cats
  induction cats with
  | nil => intro tags s k v _ h; exact Or.inl h
  | cons c rest ih =>
      intro tags s k v hne h
      obtain ⟨category, values⟩ := c
      have hner : ∀ pr ∈ rest, pr.2 ≠ [] := fun pr hpr => hne pr (List.mem_cons_of_mem _ hpr)
      by_cases h1 : category = "host"
      · simp only [hostTagsLoop, if_pos h1] at h
        rcases ih tags s k v hner h with hl | ⟨vals, hm, hrest⟩
        · exact Or.inl hl
        · exact Or.inr ⟨vals, List.mem_cons_of_mem _ hm, hrest⟩
      · by_cases h2 : category = "customer_id" ∨ category = "request_id"
        · simp only [hostTagsLoop, if_neg h1, if_pos h2] at h
          rcases ih tags s k v hner h with hl | ⟨vals, hm, hrest⟩
          · exact Or.inl hl
          · exact Or.inr ⟨vals, List.mem_cons_of_mem _ hm, hrest⟩
        · simp only [hostTagsLoop, if_neg h1, if_neg h2] at h
          by_cases h3 : (draw s).1 < 4/5
          · simp only [if_pos h3] at h
            rcases ih _ _ k v hner h with hl | ⟨vals, hm, hrest⟩
            · by_cases hkc : category = k
              · subst hkc
                rw [dictFind_dictInsert_self] at hl
                push_neg at h2
                refine Or.inr ⟨values, List.mem_cons_self _ _, ?_, h1, h2.1, h2.2⟩
                rw [← Option.some.inj hl]
                exact drawChoice_mem values ""
                  (hne (category, values) (List.mem_cons_self _ _)) _
              · rw [dictFind_dictInsert_ne _ _ _ _ hkc] at hl
                exact Or.inl hl
            · exact Or.inr ⟨vals, List.mem_cons_of_mem _ hm, hrest⟩
          · simp only [if_neg h3] at h
            rcases ih tags _ k v hner h with hl | ⟨vals, hm, hrest⟩
            · exact Or.inl hl
            · exact Or.inr ⟨vals, List.mem_cons_of_mem _ hm, hrest⟩

theorem tagCategories_ne_nil : ∀ pr ∈ TAG_CATEGORIES, pr.2 ≠ [] := by
  intro pr hpr
  simp only [TAG_CATEGORIES, List.mem_cons, List.not_mem_nil, or_false] at hpr
  rcases hpr with h | h | h | h | h | h | h | h | h | h <;> subst h <;>
    refine List.length_pos.mp ?_ <;>
    simp [hostValues, customerIdValues, requestIdValues]

theorem genHosts_length : ∀ (idxs : List ℤ) (s : RState),
    (genHosts idxs s).1.length = idxs.length := by
  intro idxs
  induction idxs with
  | nil => intro s; rfl
  | cons j rest ih => intro s; simp [genHosts, ih]

theorem List.getD_mem_of_lt {α : Type} (l : List α) (i : ℕ) (d : α) (h : i < l.length) :
    l.getD i d ∈ l := by
  rw [List.getD_eq_getElem?_getD, List.getElem?_eq_getElem h]
  exact List.getElem_mem h

theorem genHosts_getD : ∀ (idxs : List ℤ) (s : RState) (i : ℕ), i < idxs.length →
    ((genHosts idxs s).1.getD i dfltHost).id
      = "server" ++ padZeros 2 (idxs.getD i 0).toNat := by
  intro idxs
  induction idxs with
  | nil => intro s i h; simp at h
  | cons j rest ih =>
      intro s i h
      cases i with
      | zero => simp [genHosts]
      | succ i2 =>
          have h2 : i2 < rest.length := by simpa using h
          show ((genHosts (j :: rest) s).1.getD (i2 + 1) dfltHost).id = _
          simp only [genHosts, List.getD_cons_succ]
          exact ih _ i2 h2

theorem genHosts_tags : ∀ (idxs : List ℤ) (s : RState), ∀ h ∈ (genHosts idxs s).1,
    dictFind h.tags "host" = some h.id ∧
    dictFind h.tags "customer_id" = none ∧
    dictFind h.tags "request_id" = none ∧
    ∀ k v, dictFind h.tags k = some v →
      (k = "host" ∧ v = h.id) ∨
      ∃ vals, (k, vals) ∈ TAG_CATEGORIES ∧ v ∈ vals ∧
        k ≠ "host" ∧ k ≠ "customer_id" ∧ k ≠ "request_id" := by
  intro idxs
  induction idxs with
  | nil => intro s h hm; simp [genHosts] at hm
  | cons j rest ih =>
      intro s h hm
      simp only [genHosts] at hm
      rcases List.mem_cons.mp hm with he | hm2
      · subst he
        refine ⟨?_, ?_, ?_, ?_⟩
        · rw [hostTagsLoop_special "host" (Or.inl rfl)]
          rfl
        · rw [hostTagsLoop_special "customer_id" (Or.inr (Or.inl rfl))]
          rfl
        · rw [hostTagsLoop_special "request_id" (Or.inr (Or.inr rfl))]
          rfl
        · intro k v hkv
          rcases hostTagsLoop_source TAG_CATEGORIES _ s k v tagCategories_ne_nil hkv
            with hl | ⟨vals, hm3, hv, hks⟩
          · left
            simp only [dictFind] at hl
            by_cases hk : "host" = k
            · exact ⟨hk.symm, (Option.some.inj (by rwa [if_pos hk] at hl)).symm⟩
            · rw [if_neg hk] at hl; cases hl
          · exact Or.inr ⟨vals, hm3, hv, hks⟩
      · exact ih _ h hm2

theorem hostRangeLen (n : ℤ) (hn : 0 ≤ n) : pyRangeLen 1 (n + 1) 1 = n.toNat := by
  unfold pyRangeLen
  rw [if_pos (by norm_num : (0 : ℤ) < 1)]
  by_cases h : (1 : ℤ) < n + 1
  · rw [if_pos h, Int.ediv_one]
    omega
  · rw [if_neg h]
    omega

theorem pyRange_getD (a b c : ℤ) (i : ℕ) (h : i < pyRangeLen a b c) :
    (pyRange a b c).getD i 0 = a + c * (i : ℤ) := by
  unfold pyRange
  rw [List.getD_eq_getElem?_getD]
  rw [List.getElem?_map]
  rw [List.getElem?_range h]
  rfl

/-- C8: `build_hosts n` returns exactly `n` hosts; the host at 0-based index
`i` has id `server` followed by the zero-padded index `i + 1`, maps the
`"host"` tag to its id, never carries `customer_id` or `request_id`, and
every other tag it carries is a value sampled from the fixed value set of
its category. -/
theorem host_catalog (n : ℤ) (s : RState) (hn : 0 ≤ n) :
    (((generate_host_configs n s).1.length : ℤ) = n) ∧
    ∀ i : ℕ, i < (generate_host_configs n s).1.length →
      hostOk ((generate_host_configs n s).1.getD i dfltHost) (i + 1) := by
  have hlen : (generate_host_configs n s).1.length = n.toNat := by
    unfold generate_host_configs
    rw [genHosts_length, pyRange_length, hostRangeLen n hn]
  constructor
  · rw [hlen]; omega
  · intro i hi
    rw [hlen] at hi
    have hil : i < (pyRange 1 (n + 1) 1).length := by
      rw [pyRange_length, hostRangeLen n hn]; exact hi
    have hid : ((genHosts (pyRange 1 (n + 1) 1) s).1.getD i dfltHost).id
        = "server" ++ padZeros 2 ((pyRange 1 (n + 1) 1).getD i 0).toNat :=
      genHosts_getD _ s i hil
    have hrg : (pyRange 1 (n + 1) 1).getD i 0 = 1 + 1 * (i : ℤ) := by
      apply pyRange_getD
      rw [hostRangeLen n hn]; exact hi
    have hmem : (genHosts (pyRange 1 (n + 1) 1) s).1.getD i dfltHost
        ∈ (genHosts (pyRange 1 (n + 1) 1) s).1 := by
      apply List.getD_mem_of_lt
      rw [genHosts_length]; exact hil
    obtain ⟨t1, t2, t3, t4⟩ := genHosts_tags _ s _ hmem
    refine ⟨?_, t1, t2, t3, t4⟩
    show ((genHosts (pyRange 1 (n + 1) 1) s).1.getD i dfltHost).id = _
    rw [hid, hrg]
    have htn : ((1 : ℤ) + 1 * (i : ℤ)).toNat = i + 1 := by omega
    rw [htn]

/-- C8 witness: a concrete one-host catalog has length 1, and its host obeys
the per-host contract at index 1. -/
theorem host_catalog_witness :
    (0 : ℤ) ≤ 1 ∧ (((generate_host_configs 1 []).1.length : ℤ) = 1) ∧
    hostOk ((generate_host_configs 1 []).1.getD 0 dfltHost) 1 :=
  ⟨by decide, (host_catalog 1 [] (by decide)).1,
   (host_catalog 1 [] (by decide)).2 0 (by decide)⟩

/-! C4.  Per-timestamp shared high-cardinality ids. -/

theorem applyHC_find (m : Metric) (cid rid : String) (tags0 : List (String × String))
    (hc0 : dictFind tags0 "customer_id" = none)
    (hr0 : dictFind tags0 "request_id" = none) :
    (dictFind (applyHighCardinality m cid rid tags0) "customer_id" = none ∨
      dictFind (applyHighCardinality m cid rid tags0) "customer_id" = some cid) ∧
    (dictFind (applyHighCardinality m cid rid tags0) "request_id" = none ∨
      dictFind (applyHighCardinality m cid rid tags0) "request_id" = some rid) := by
  unfold applyHighCardinality
  by_cases hm : m.high_cardinality
  · simp only [if_pos hm]
    suffices haux : ∀ (keys : List String) (tgs : List (String × String)),
        (dictFind tgs "customer_id" = none ∨ dictFind tgs "customer_id" = some cid) →
        (dictFind tgs "request_id" = none ∨ dictFind tgs "request_id" = some rid) →
        (dictFind (keys.foldl
            (fun tgs2 tag_key =>
              if tag_key = "customer_id" then dictInsert tgs2 "customer_id" cid
              else if tag_key = "request_id" then dictInsert tgs2 "request_id" rid
              else tgs2) tgs) "customer_id" = none ∨
          dictFind (keys.foldl
            (fun tgs2 tag_key =>
              if tag_key = "customer_id" then dictInsert tgs2 "customer_id" cid
              else if tag_key = "request_id" then dictInsert tgs2 "request_id" rid
              else tgs2) tgs) "customer_id" = some cid) ∧
        (dictFind (keys.foldl
            (fun tgs2 tag_key =>
              if tag_key = "customer_id" then dictInsert tgs2 "customer_id" cid
              else if tag_key = "request_id" then dictInsert tgs2 "request_id" rid
              else tgs2) tgs) "request_id" = none ∨
          dictFind (keys.foldl
            (fun tgs2 tag_key =>
              if tag_key = "customer_id" then dictInsert tgs2 "customer_id" cid
              else if tag_key = "request_id" then dictInsert tgs2 "request_id" rid
              else tgs2) tgs) "request_id" = some rid) by
      exact haux m.tag_keys tags0 (Or.inl hc0) (Or.inl hr0)
    intro keys
    induction keys with
    | nil => intro tgs hc hr; exact ⟨hc, hr⟩
    | cons key rest ih =>
        intro tgs hc hr
        simp only [List.foldl_cons]
        by_cases hk1 : key = "customer_id"
        · rw [if_pos hk1]
          refine ih _ (Or.inr (dictFind_dictInsert_self _ _ _)) ?_
          rw [dictFind_dictInsert_ne _ _ _ _ (by decide : "customer_id" ≠ "request_id")]
          exact hr
        · rw [if_neg hk1]
          by_cases hk2 : key = "request_id"
          · rw [if_pos hk2]
            refine ih _ ?_ (Or.inr (dictFind_dictInsert_self _ _ _))
            rw [dictFind_dictInsert_ne _ _ _ _ (by decide : "request_id" ≠ "customer_id")]
            exact hc
          · rw [if_neg hk2]
            exact ih _ hc hr
  · simp only [if_neg hm]
    exact ⟨Or.inl hc0, Or.inl hr0⟩

theorem genMetricsLoop_mem (sinPi : ℚ → ℚ) (ts : ℤ) (cid rid : String) (host : Host) :
    ∀ (ms : List Metric) (lv : List (String × ℚ)) (s : RState),
    ∀ p ∈ (genMetricsLoop sinPi ts cid rid host ms lv s).1,
      p.timestamp = ts ∧ ∃ m ∈ ms, p.tags = applyHighCardinality m cid rid host.tags := by
  intro ms
  induction ms with
  | nil => intro lv s p hp; simp [genMetricsLoop] at hp
  | cons m rest ih =>
      intro lv s p hp
      simp only [genMetricsLoop] at hp
      rcases List.mem_cons.mp hp with he | hm2
      · subst he
        exact ⟨rfl, m, List.mem_cons_self _ _, rfl⟩
      · obtain ⟨hts, m2, hmem, htags⟩ := ih _ _ p hm2
        exact ⟨hts, m2, List.mem_cons_of_mem _ hmem, htags⟩

theorem genHostsLoop_mem (sinPi : ℚ → ℚ) (ts : ℤ) (cid rid : String) (metrics : List Metric) :
    ∀ (hs : List Host) (lv : List (String × ℚ)) (s : RState),
    ∀ p ∈ (genHostsLoop sinPi ts cid rid metrics hs lv s).1,
      p.timestamp = ts ∧
        ∃ h ∈ hs, ∃ m ∈ metrics, p.tags = applyHighCardinality m cid rid h.tags := by
  intro hs
  induction hs with
  | nil => intro lv s p hp; simp [genHostsLoop] at hp
  | cons h rest ih =>
      intro lv s p hp
      simp only [genHostsLoop] at hp
      rcases List.mem_append.mp hp with h1 | h2
      · obtain ⟨hts, m, hmem, htags⟩ := genMetricsLoop_mem sinPi ts cid rid h metrics _ _ p h1
        exact ⟨hts, h, List.mem_cons_self _ _, m, hmem, htags⟩
      · obtain ⟨hts, h2m, hhmem, m, hmem, htags⟩ := ih _ _ p h2
        exact ⟨hts, h2m, List.mem_cons_of_mem _ hhmem, m, hmem, htags⟩

theorem genTimestampsLoop_ts_mem (sinPi : ℚ → ℚ) (metrics : List Metric) (hosts : List Host) :
    ∀ (tss : List ℤ) (lv : List (String × ℚ)) (s : RState),
    ∀ p ∈ (genTimestampsLoop sinPi metrics hosts tss lv s).1, p.timestamp ∈ tss := by
  intro tss
  induction tss with
  | nil => intro lv s p hp; simp [genTimestampsLoop] at hp
  | cons ts rest ih =>
      intro lv s p hp
      simp only [genTimestampsLoop] at hp
      rcases List.mem_append.mp hp with h1 | h2
      · exact (genHostsLoop_mem sinPi ts _ _ metrics hosts _ _ p h1).1 ▸
          List.mem_cons_self _ _
      · exact List.mem_cons_of_mem _ (ih _ _ p h2)

theorem genTimestampsLoop_shared (sinPi : ℚ → ℚ) (metrics : List Metric) (hosts : List Host)
    (hclean : ∀ h ∈ hosts,
      dictFind h.tags "customer_id" = none ∧ dictFind h.tags "request_id" = none) :
    ∀ (tss : List ℤ), tss.Nodup → ∀ (lv : List (String × ℚ)) (s : RState),
    ∀ p ∈ (genTimestampsLoop sinPi metrics hosts tss lv s).1,
    ∀ q ∈ (genTimestampsLoop sinPi metrics hosts tss lv s).1,
    p.timestamp = q.timestamp →
      (∀ c d, dictFind p.tags "customer_id" = some c →
        dictFind q.tags "customer_id" = some d → c = d) ∧
      (∀ c d, dictFind p.tags "request_id" = some c →
        dictFind q.tags "request_id" = some d → c = d) := by
  intro tss
  induction tss with
  | nil => intro _ lv s p hp; simp [genTimestampsLoop] at hp
  | cons ts rest ih =>
      intro hnd lv s p hp q hq hpq
      obtain ⟨hts_notin, hnd_rest⟩ := List.nodup_cons.mp hnd
      simp only [genTimestampsLoop] at hp hq
      rcases List.mem_append.mp hp with hp1 | hp2 <;>
        rcases List.mem_append.mp hq with hq1 | hq2
      · obtain ⟨_, hhp, hhpm, mp, hmp, htagsp⟩ :=
          genHostsLoop_mem sinPi ts _ _ metrics hosts _ _ p hp1
        obtain ⟨_, hhq, hhqm, mq, hmq, htagsq⟩ :=
          genHostsLoop_mem sinPi ts _ _ metrics hosts _ _ q hq1
        obtain ⟨hcp, hrp⟩ := applyHC_find mp _ _ hhp.tags
          (hclean hhp hhpm).1 (hclean hhp hhpm).2
        obtain ⟨hcq, hrq⟩ := applyHC_find mq _ _ hhq.tags
          (hclean hhq hhqm).1 (hclean hhq hhqm).2
        rw [← htagsp] at hcp hrp
        rw [← htagsq] at hcq hrq
        constructor
        · intro c d hc hd
          rcases hcp with h1 | h1
          · rw [h1] at hc; cases hc
          · rcases hcq with h2 | h2
            · rw [h2] at hd; cases hd
            · rw [h1] at hc; rw [h2] at hd
              rw [← Option.some.inj hc, ← Option.some.inj hd]
        · intro c d hc hd
          rcases hrp with h1 | h1
          · rw [h1] at hc; cases hc
          · rcases hrq with h2 | h2
            · rw [h2] at hd; cases hd
            · rw [h1] at hc; rw [h2] at hd
              rw [← Option.some.inj hc, ← Option.some.inj hd]
      · exfalso
        apply hts_notin
        have hpts : p.timestamp = ts :=
          (genHostsLoop_mem sinPi ts _ _ metrics hosts _ _ p hp1).1
        have hqts : q.timestamp ∈ rest :=
          genTimestampsLoop_ts_mem sinPi metrics hosts rest _ _ q hq2
        rw [← hpts, hpq]
        exact hqts
      · exfalso
        apply hts_notin
        have hqts : q.timestamp = ts :=
          (genHostsLoop_mem sinPi ts _ _ metrics hosts _ _ q hq1).1
        have hpts : p.timestamp ∈ rest :=
          genTimestampsLoop_ts_mem sinPi metrics hosts rest _ _ p hp2
        rw [← hqts, ← hpq]
        exact hpts
      · exact ih hnd_rest _ _ p hp2 q hq2 hpq

theorem pyRange_nodup (a b c : ℤ) (hc : c ≠ 0) : (pyRange a b c).Nodup := by
  unfold pyRange
  refine List.Nodup.map ?_ (List.nodup_range _)
  intro x y hxy
  simp only at hxy
  have hx : c * (x : ℤ) = c * (y : ℤ) := by linarith
  have := mul_left_cancel₀ hc hx
  exact_mod_cast this

/-- C4: in any generation run whose hosts carry neither `customer_id` nor
`request_id` tags of their own (as all generated hosts do), any two data
points of the same timestamp agree on their `customer_id` tag value when
both carry one, and likewise on their `request_id` tag value: the ids are
drawn once per timestamp and shared across all hosts and metrics. -/
theorem shared_high_cardinality_ids (sinPi : ℚ → ℚ) (start endT interval : ℤ)
    (metrics : List Metric) (hosts : List Host) (s : RState) (pts : List DataPoint)
    (hrun : (generate_time_series_data sinPi start endT interval metrics hosts s).1
      = Except.ok pts)
    (hclean : ∀ h ∈ hosts,
      dictFind h.tags "customer_id" = none ∧ dictFind h.tags "request_id" = none)
    (p : DataPoint) (hp : p ∈ pts) (q : DataPoint) (hq : q ∈ pts)
    (ht : p.timestamp = q.timestamp) :
    (∀ c d, dictFind p.tags "customer_id" = some c →
      dictFind q.tags "customer_id" = some d → c = d) ∧
    (∀ c d, dictFind p.tags "request_id" = some c →
      dictFind q.tags "request_id" = some d → c = d) := by
  by_cases hz : interval = 0
  · rw [generate_time_series_data, if_pos hz] at hrun
    cases hrun
  · rw [run_eq_ok sinPi start endT interval metrics hosts s hz] at hrun
    have hpts := Except.ok.inj hrun
    subst hpts
    exact genTimestampsLoop_shared sinPi metrics hosts hclean _
      (pyRange_nodup start (endT + 1) interval hz) [] s p hp q hq ht

theorem drawChoice_snd {α : Type} (l : List α) (d : α) (s : RState) :
    (drawChoice l d s).2 = s.tail := rfl

theorem choiceIdx_zero (n : ℕ) : choiceIdx 0 n = 0 := by simp [choiceIdx]

theorem cidValues_getD_zero : customerIdValues.getD 0 "" = "cust000001" := by
  simp only [customerIdValues]
  rw [List.getD_eq_getElem?_getD, List.getElem?_map,
    List.getElem?_range (by norm_num : (0 : ℕ) < 10000)]
  rfl

theorem ridValues_getD_zero : requestIdValues.getD 0 "" = "req00000001" := by
  simp only [requestIdValues]
  rw [List.getD_eq_getElem?_getD, List.getElem?_map,
    List.getElem?_range (by norm_num : (0 : ℕ) < 1000)]
  rfl

theorem drawChoice_cid_nil : (drawChoice customerIdValues "" []).1 = "cust000001" := by
  have h0 : (draw ([] : RState)).1 = 0 := rfl
  simp only [drawChoice, h0, choiceIdx_zero, cidValues_getD_zero]

theorem drawChoice_rid_nil : (drawChoice requestIdValues "" []).1 = "req00000001" := by
  have h0 : (draw ([] : RState)).1 = 0 := rfl
  simp only [drawChoice, h0, choiceIdx_zero, ridValues_getD_zero]

/-- Evaluation of the concrete single-timestamp run used by the C4 witness:
the two shared ids are the first entries of their pools, and the two points
carry them as claimed. -/
theorem c4_run_eval :
    (generate_time_series_data sinPiZero 0 0 60 [cMetric, cMetric2] [cHost] []).1
      = Except.ok [cPoint1, cPoint2] := by
  rw [run_eq_ok sinPiZero 0 0 60 [cMetric, cMetric2] [cHost] [] (by norm_num)]
  have hrange : pyRange 0 (0 + 1) 60 = [0] := by decide
  rw [hrange]
  simp only [genTimestampsLoop, drawChoice_snd, List.tail_nil,
    drawChoice_cid_nil, drawChoice_rid_nil]
  decide

/-- C4 witness: a concrete run with one timestamp, one host and two
high-cardinality metrics; both emitted points carry the same shared
customer id, and the theorem applies to them. -/
theorem shared_high_cardinality_ids_witness :
    ((generate_time_series_data sinPiZero 0 0 60 [cMetric, cMetric2] [cHost] []).1
      = Except.ok [cPoint1, cPoint2]) ∧
    dictFind cPoint1.tags "customer_id" = some "cust000001" ∧
    dictFind cPoint2.tags "customer_id" = some "cust000001" ∧
    "cust000001" = "cust000001" :=
  ⟨c4_run_eval, by decide, by decide,
   (shared_high_cardinality_ids sinPiZero 0 0 60 [cMetric, cMetric2] [cHost] []
      [cPoint1, cPoint2] c4_run_eval (by decide)
      cPoint1 (by decide) cPoint2 (by decide) (by decide)).1
    "cust000001" "cust000001" (by decide) (by decide)⟩
